import Mathlib

/-!
Verification of the omics-oracle therapeutic-target agent core:
the caching data-access gateway (`thera_agent/data/cache.py`,
`thera_agent/data/http_client.py`), the ChEMBL normalization pipeline
(`thera_agent/data/chembl_client.py`) and the aggregation / orchestration
layer (`thera_agent/agent.py`), shallowly embedded in Lean 4.

Floating-point values of the Python code are modelled as rationals (`ℚ`);
all constants appearing in the code are exact decimals, so the arithmetic
of the model coincides with the source on every branch decision proved
here.
-/

namespace OmicsOracle

/-! ## JSON values

Model of the Python JSON values that flow through the cache and the HTTP
client: objects are association lists keyed by strings, preserving
insertion order (as Python dicts do).  Arrays do not occur in any cache
key or claim considered here and are omitted from the model. -/

inductive J : Type where
  | jnull : J
  | jbool : Bool → J
  | jnum : Int → J
  | jstr : String → J
  | jobj : List (String × J) → J

/-- Python truthiness of a JSON value: `None`, `False`, `0`, `""` and `{}`
are falsy, everything else is truthy (`if cached_response:` in
`http_client.py`). -/
def truthyJ : J → Bool
  | .jnull => false
  | .jbool b => b
  | .jnum n => n != 0
  | .jstr s => s != ""
  | .jobj l => !l.isEmpty

/-- Key order used by `json.dumps(..., sort_keys=True)`: lexicographic
order of the keys of each object. -/
def keyLE (a b : String × J) : Prop := a.1 ≤ b.1

instance : DecidableRel keyLE := fun a b => inferInstanceAs (Decidable (a.1 ≤ b.1))

mutual
/-- Recursively sort every object of a JSON value by key, as
`json.dumps(..., sort_keys=True)` serializes it. -/
def sortJ : J → J
  | .jnull => .jnull
  | .jbool b => .jbool b
  | .jnum n => .jnum n
  | .jstr s => .jstr s
  | .jobj kvs => .jobj (List.insertionSort keyLE (sortVals kvs))
termination_by structural j => j

/-- Sort the values of an association list recursively (keys untouched). -/
def sortVals : List (String × J) → List (String × J)
  | [] => []
  | (k, v) :: rest => (k, sortJ v) :: sortVals rest
termination_by structural l => l
end

mutual
/-- Serialize a JSON value whose objects are already in canonical key
order, producing the character stream `json.dumps` emits. -/
def serJ : J → List Char
  | .jnull => [ 'n', 'u', 'l', 'l' ]
  | .jbool b => if b then [ 't', 'r', 'u', 'e' ] else [ 'f', 'a', 'l', 's', 'e' ]
  | .jnum n => (toString n).data
  | .jstr s => '"' :: s.data ++ ['"']
  | .jobj kvs => '\x7b' :: serEntries kvs ++ ['\x7d']
termination_by structural j => j

/-- Serialize the entries of an object, separated by `", "`. -/
def serEntries : List (String × J) → List Char
  | [] => []
  | [(k, v)] => '"' :: k.data ++ ['"', ':', ' '] ++ serJ v
  | (k, v) :: e :: rest =>
      '"' :: k.data ++ ['"', ':', ' '] ++ serJ v ++ [',', ' '] ++ serEntries (e :: rest)
termination_by structural l => l
end

/-- `APICache._make_key` (cache.py lines 34-37): the cache key is the MD5
digest of `f"{url}:{json.dumps(params or {}, sort_keys=True)}"`.  The
digest is a fixed deterministic function of this character stream, so the
model identifies fingerprints with the stream itself: two fingerprints
are equal exactly when their pre-digest serializations are equal. -/
def make_key (url : String) (params : List (String × J)) : List Char :=
  url.data ++ ':' :: serJ (sortJ (.jobj params))

/-! ## APICache (`thera_agent/data/cache.py`)

The SQLite table `api_cache(key PRIMARY KEY, data, created_at, expires_at)`
is modelled as an association list from cache key to
`(payload, expires_at)`; the primary-key constraint is maintained by
modelling `INSERT OR REPLACE` as remove-then-prepend.  Timestamps are
rationals measured in hours, so `expires_at = now + ttl_hours` mirrors
`datetime.now() + timedelta(hours=ttl_hours)`.  The `data` column holds
`json.dumps(payload)` in the source and `get` returns `json.loads(data)`;
since `loads ∘ dumps` is the identity on the JSON values modelled here,
the model stores the payload itself. -/

/-- Cache state: one row per key, `(key, payload, expires_at)`. -/
abbrev CacheState : Type := List (List Char × J × ℚ)

/-- `APICache.get` (cache.py lines 39-53): select the row whose key
matches and whose `expires_at` is strictly in the future
(`expires_at > datetime('now')`); an expired row is a miss even while it
is still physically present.  The clock `now` here is SQLite's
`datetime('now')`, which is **UTC** — not the naive local clock that
`set` stamps `expires_at` with. -/
def cache_get (st : CacheState) (now : ℚ) (url : String) (params : List (String × J)) :
    Option J :=
  match st.find? (fun e => decide (e.1 = make_key url params) && decide (now < e.2.2)) with
  | some e => some e.2.1
  | none => none

/-- `APICache.set` (cache.py lines 55-64): upsert (`INSERT OR REPLACE`)
of the row with `expires_at = datetime.now() + timedelta(hours=ttl)`.
`datetime.now()` is naive **local** wall time — UTC plus the host's
timezone offset — whereas every comparison against `expires_at`
(`get`, `cleanup_expired`, `stats`) uses SQLite's `datetime('now')`,
which is UTC.  The model therefore threads the two clocks separately:
`now` is the UTC clock and `tz_offset` the host's offset in hours, so
the stamped expiry is `(now + tz_offset) + ttl_hours`. -/
def cache_set (st : CacheState) (tz_offset now : ℚ) (url : String)
    (params : List (String × J)) (data : J) (ttl_hours : ℚ) : CacheState :=
  let k := make_key url params
  (k, data, (now + tz_offset) + ttl_hours) :: st.filter (fun e => !decide (e.1 = k))

/-! ## RateLimitedClient (`thera_agent/data/http_client.py`)

The per-domain throttle `self.rate_limits` maps a domain to
`{requests_per_second, last_request}`.  `_enforce_rate_limit` computes the
deficit against `1 / requests_per_second` and sleeps it off before
stamping `last_request` with the release time.  The network itself is a
parameter of the model: one `NetOutcome` per attempted call. -/

/-- One throttle entry: `(domain, requests_per_second, last_request)`. -/
abbrev Throttle : Type := List (String × ℚ × ℚ)

/-- The initial `self.rate_limits` dictionary of `RateLimitedClient`. -/
def initial_rate_limits : Throttle :=
  [("eutils.ncbi.nlm.nih.gov", 10, 0), ("www.ebi.ac.uk", 2, 0), ("search.rcsb.org", 5, 0)]

/-- Characters of the host part: everything between the first `"://"`
and the next `"/"`. -/
def hostChars : List Char → List Char
  | [] => []
  | c :: t =>
      if [':', '/', '/'].isPrefixOf (c :: t) then (t.drop 2).takeWhile (· ≠ '/')
      else hostChars t

/-- `httpx.URL(url).host`: the substring between `"://"` and the next
`"/"`. -/
def domainOf (url : String) : String := String.mk (hostChars url.data)

/-- `RateLimitedClient._enforce_rate_limit` (http_client.py lines 23-33):
for a configured domain, sleep until `min_interval = 1/rps` has elapsed
since `last_request`, then stamp `last_request` with the current time.
Returns the time slept and the updated throttle state. -/
def enforce_rate_limit (thr : Throttle) (domain : String) (now : ℚ) : ℚ × Throttle :=
  match thr.find? (fun e => decide (e.1 = domain)) with
  | none => (0, thr)
  | some e =>
      let min_interval := 1 / e.2.1
      let elapsed := now - e.2.2
      let wait := if elapsed < min_interval then min_interval - elapsed else 0
      (wait, thr.map (fun f => if f.1 = domain then (f.1, f.2.1, now + wait) else f))

/-- Outcome of one physical network attempt. -/
inductive NetOutcome : Type where
  | timeout : NetOutcome
  | connectError : NetOutcome
  | response (status : Nat) (contentType : String) (bodyJson : J) (bodyText : String) :
      NetOutcome

/-- Errors surfaced by `RateLimitedClient.get`: `httpx.TimeoutException`,
`httpx.ConnectError`, or the `httpx.HTTPStatusError` raised by
`response.raise_for_status()` for a non-2xx status. -/
inductive GetError : Type where
  | netTimeout : GetError
  | netConnect : GetError
  | httpStatus (code : Nat) : GetError
  deriving DecidableEq

/-- Exception types retried by the `tenacity` decorator on
`RateLimitedClient.get`: only `httpx.TimeoutException` and
`httpx.ConnectError`. -/
def retryable : GetError → Bool
  | .netTimeout => true
  | .netConnect => true
  | .httpStatus _ => false

/-- Result of one call to `RateLimitedClient.get`, together with the
observable effects: the resulting cache and throttle states, whether a
network request was issued, and whether `_enforce_rate_limit` ran. -/
structure GetResult : Type where
  result : Except GetError J
  cache : CacheState
  throttle : Throttle
  networkCalled : Bool
  enforceCalled : Bool

/-- The cache-miss path of one attempt of `RateLimitedClient.get`
(http_client.py lines 49-66): enforce the rate limit, issue the call,
`raise_for_status()` (httpx raises for every non-2xx status), parse JSON
or wrap raw text, and write the successful payload through to the
cache. -/
def get_attempt_miss (st : CacheState) (thr : Throttle) (tz now : ℚ) (url : String)
    (params : List (String × J)) (ttl_hours : ℚ) (net : NetOutcome) : GetResult :=
  let rl := enforce_rate_limit thr (domainOf url) now
  match net with
  | .timeout => ⟨.error .netTimeout, st, rl.2, true, true⟩
  | .connectError => ⟨.error .netConnect, st, rl.2, true, true⟩
  | .response status ct bodyJson bodyText =>
      if 200 ≤ status ∧ status < 300 then
        let data :=
          if "application/json".data.isPrefixOf ct.data then bodyJson
          else .jobj [("text", .jstr bodyText), ("status_code", .jnum status)]
        ⟨.ok data, cache_set st tz now url params data ttl_hours, rl.2, true, true⟩
      else ⟨.error (.httpStatus status), st, rl.2, true, true⟩

/-- One attempt of `RateLimitedClient.get` (http_client.py lines 40-66):
check the cache first (`if cached_response:` — Python truthiness); on a
truthy hit return it at once with no network call and no rate-limit wait;
otherwise take the miss path. -/
def get_attempt (st : CacheState) (thr : Throttle) (tz now : ℚ) (url : String)
    (params : List (String × J)) (ttl_hours : ℚ) (net : NetOutcome) : GetResult :=
  match cache_get st now url params with
  | some v =>
      if truthyJ v then ⟨.ok v, st, thr, false, false⟩
      else get_attempt_miss st thr tz now url params ttl_hours net
  | none => get_attempt_miss st thr tz now url params ttl_hours net

/-- The `tenacity` retry loop around `get`: `stop_after_attempt(3)` with
retry only on `httpx.TimeoutException` / `httpx.ConnectError`.  `nets`
supplies the outcome of each successive physical attempt; the returned
`Nat` counts the attempts actually made. -/
def get_with_retry (st : CacheState) (thr : Throttle) (tz now : ℚ) (url : String)
    (params : List (String × J)) (ttl_hours : ℚ) :
    Nat → (Nat → NetOutcome) → Nat → GetResult × Nat
  | 0, _, _ => (⟨.error .netTimeout, st, thr, false, false⟩, 0)
  | remaining + 1, nets, k =>
      let r := get_attempt st thr tz now url params ttl_hours (nets k)
      match r.result with
      | .error e =>
          if retryable e && decide (0 < remaining) then
            let next := get_with_retry r.cache r.throttle tz now url params ttl_hours
              remaining nets (k + 1)
            (next.1, next.2 + 1)
          else (r, 1)
      | .ok _ => (r, 1)

/-- `RateLimitedClient.get` as observed by callers: up to three attempts. -/
def client_get (st : CacheState) (thr : Throttle) (tz now : ℚ) (url : String)
    (params : List (String × J)) (ttl_hours : ℚ) (nets : Nat → NetOutcome) :
    GetResult × Nat :=
  get_with_retry st thr tz now url params ttl_hours 3 nets 0

/-! ## Normalized records

The record shapes flowing between the source adapters and the scorer.
Optional fields model dictionary keys read with `.get`: `none` stands for
an absent key (or JSON `null`). -/

/-- A literature record; `_calculate_target_score` uses only the length
of the literature list, so only an identifier is kept. -/
structure LiteratureRecord : Type where
  pmid : String
  deriving DecidableEq

/-- Molecule metadata attached by `ChEMBLClient.get_molecules`
(chembl_client.py lines 175-187). -/
structure MolInfo : Type where
  preferred_name : Option String := none
  molecular_weight : Option ℚ := none
  alogp : Option ℚ := none
  max_phase : Option ℚ := none
  smiles : Option String := none
  deriving DecidableEq

/-- A bioactivity record: the dictionary produced by
`ChEMBLClient._normalize_activity` (chembl_client.py lines 95-107),
optionally enriched with target and molecule metadata
(`get_inhibitors_for_target`) and with `pdb_structures`
(`analyze_target` cross-validation). -/
structure Inhibitor : Type where
  activity_id : Option Int := none
  molecule_chembl_id : Option String := none
  standard_type : String := ""
  standard_value_nm : Option ℚ := none
  assay_description : String := ""
  assay_type : String := ""
  assay_organism : Option String := none
  quality_score : Option ℚ := none
  confidence_score : Option ℚ := none
  pchembl_value : Option ℚ := none
  data_validity_comment : Option String := none
  target_chembl_id : Option String := none
  target_name : Option String := none
  molecule : Option MolInfo := none
  pdb_structures : List String := []
  deriving DecidableEq

/-- A structure record as consumed by `_calculate_target_score`:
only `quality_score` and `ligands` are read there. -/
structure StructureRec : Type where
  pdb_id : String := ""
  quality_score : Option ℚ := none
  ligands : List String := []
  deriving DecidableEq

/-! ## AggregationScorer (`TherapeuticTargetAgent._calculate_target_score`,
agent.py lines 159-214) -/

/-- Literature evidence points (0-3): thresholds 20 / 10 / 5 / 1. -/
def litPoints (n : Nat) : ℚ :=
  if 20 ≤ n then 3 else if 10 ≤ n then 2 else if 5 ≤ n then 1 else if 1 ≤ n then 0.5 else 0

/-- The order of extended potency values, where `none` stands for the
`float('inf')` default of `inh.get("standard_value_nm", float('inf'))`:
`infLEb a b` is `a ≤ b` with `none = +∞`. -/
def infLEb : Option ℚ → Option ℚ → Bool
  | _, none => true
  | none, some _ => false
  | some x, some y => decide (x ≤ y)

/-- Propositional form of `infLEb`. -/
def infLE (a b : Option ℚ) : Prop := infLEb a b = true

instance : DecidableRel infLE := fun _ _ => inferInstanceAs (Decidable (_ = true))

/-- Minimum of extended potency values (`none = +∞`). -/
def minOpt : Option ℚ → Option ℚ → Option ℚ
  | none, b => b
  | some x, none => some x
  | some x, some y => some (min x y)

/-- `min([inh.get("standard_value_nm", float('inf')) for inh in
inhibitors])`: the most potent (smallest) value, `none` when every record
lacks one. -/
def bestIC50 (inhs : List Inhibitor) : Option ℚ :=
  (inhs.map (·.standard_value_nm)).foldr minOpt none

/-- Potency points of the best inhibitor: `≤1 → 2.0`, `≤10 → 1.5`,
`≤50 → 1.0`, `≤100 → 0.5`; the comparisons are all false at `+∞`. -/
def potencyPoints : Option ℚ → ℚ
  | none => 0
  | some v =>
      if v ≤ 1 then 2 else if v ≤ 10 then 1.5 else if v ≤ 50 then 1
      else if v ≤ 100 then 0.5 else 0

/-- Inhibitor-count points: `≥10 → 1.0`, `≥5 → 0.5`. -/
def countPoints (n : Nat) : ℚ :=
  if 10 ≤ n then 1 else if 5 ≤ n then 0.5 else 0

/-- `inh.get("quality_score", 0)`. -/
def qualityD (i : Inhibitor) : ℚ := i.quality_score.getD 0

/-- Average inhibitor quality (division by zero in `ℚ` yields 0; the
scorer only divides when the list is non-empty). -/
def avgInhQuality (inhs : List Inhibitor) : ℚ :=
  (inhs.map qualityD).sum / inhs.length

/-- `struct.get("quality_score", 0)`. -/
def structQualityD (s : StructureRec) : ℚ := s.quality_score.getD 0

/-- Average structure quality. -/
def avgStructQuality (structs : List StructureRec) : ℚ :=
  (structs.map structQualityD).sum / structs.length

/-- `s.get("ligands")` truthiness: a non-empty ligand list. -/
def hasLigands (s : StructureRec) : Bool := !s.ligands.isEmpty

/-- `_calculate_target_score` (agent.py lines 159-214): literature points,
plus — when any inhibitor exists — potency, count and average-quality
points, plus — when any structure exists — a base point, the average
structure quality, and a ligand-bound bonus; finally `min(10.0, score)`. -/
def calculate_target_score (lit : List LiteratureRecord) (inhs : List Inhibitor)
    (structs : List StructureRec) : ℚ :=
  min 10 (litPoints lit.length +
    (if inhs.isEmpty then 0
     else potencyPoints (bestIC50 inhs) + countPoints inhs.length + avgInhQuality inhs * 1) +
    (if structs.isEmpty then 0
     else 1 + avgStructQuality structs * 1 + (if structs.any hasLigands then 1 else 0)))

/-! ## ChEMBLClient (`thera_agent/data/chembl_client.py`) -/

/-- Python `str.upper()` on the characters occurring in unit strings:
ASCII case mapping plus `µ → Μ` (the Greek capital mu). -/
def pyUpperChar (c : Char) : Char := if c = 'μ' then 'Μ' else c.toUpper

/-- Python `str.upper()`. -/
def pyUpper (s : String) : String := String.mk (s.data.map pyUpperChar)

/-- Python `str.lower()` on the characters occurring here: ASCII case
mapping plus `Μ → µ`. -/
def pyLowerChar (c : Char) : Char := if c = 'Μ' then 'μ' else c.toLower

/-- Python `str.lower()`. -/
def pyLower (s : String) : String := String.mk (s.data.map pyLowerChar)

/-- Python `needle in hay` substring test. -/
def containsSub (hay needle : List Char) : Bool :=
  match hay with
  | [] => needle.isEmpty
  | _ :: t => needle.isPrefixOf hay || containsSub t needle

/-- The fixed conversion table of `ChEMBLClient._convert_to_nm`
(chembl_client.py lines 115-122). -/
def conversion_factor (u : String) : Option ℚ :=
  if u = "NM" then some 1
  else if u = "UM" then some 1000
  else if u = "MM" then some 1000000
  else if u = "M" then some 1000000000
  else if u = "PM" then some 0.001
  else if u = "FM" then some 0.000001
  else none

/-- `ChEMBLClient._convert_to_nm` (chembl_client.py lines 113-129):
`units.replace("μ", "U").upper()` then the table lookup; an unrecognized
unit yields `None` (normalization failure). -/
def convert_to_nm (value : ℚ) (units : String) : Option ℚ :=
  let units_clean := pyUpper (String.mk (units.data.map fun c => if c = 'μ' then 'U' else c))
  match conversion_factor units_clean with
  | some f => some (value * f)
  | none => none

/-- A raw ChEMBL activity dictionary as fetched from the API: exactly the
keys `_normalize_activity` reads.  Numeric JSON fields are modelled as
already-parsed rationals (`float(...)` in the source). -/
structure Activity : Type where
  activity_id : Option Int := none
  molecule_chembl_id : Option String := none
  standard_value : Option ℚ := none
  standard_units : Option String := none
  standard_type : Option String := none
  assay_description : Option String := none
  assay_type : Option String := none
  assay_organism : Option String := none
  confidence_score : Option ℚ := none
  pchembl_value : Option ℚ := none
  data_validity_comment : Option String := none
  deriving DecidableEq

/-- Python truthiness of an optional number: `None` and `0` are falsy. -/
def truthyQ (x : Option ℚ) : Bool :=
  match x with
  | some v => v != 0
  | none => false

/-- `ChEMBLClient._calculate_quality_score` (chembl_client.py lines
131-153): base 0.5, +0.2 for a truthy `pchembl_value`, +`conf/10 * 0.2`
for a truthy `confidence_score`, +0.1 when the lower-cased assay type
contains "functional" or "cell", −0.2 when the validity comment contains
"outside typical range", clamped to `[0, 1]`. -/
def calculate_quality_score (a : Activity) : ℚ :=
  let s1 : ℚ := 0.5 + (if truthyQ a.pchembl_value then 0.2 else 0)
  let s2 := s1 +
    (match a.confidence_score with
     | some c => if c ≠ 0 then c / 10 * 0.2 else 0
     | none => 0)
  let assay := pyLower (a.assay_type.getD "")
  let s3 := s2 +
    (if containsSub assay.data "functional".data || containsSub assay.data "cell".data
     then 0.1 else 0)
  let vc := a.data_validity_comment.getD ""
  let s4 := s3 -
    (if vc ≠ "" ∧ containsSub (pyLower vc).data "outside typical range".data
     then 0.2 else 0)
  max 0 (min 1 s4)

/-- `ChEMBLClient._normalize_activity` (chembl_client.py lines 71-111):
drop the record when `standard_value` or `standard_type` is falsy
(`if not standard_value or not standard_type`), or when `_convert_to_nm`
recognizes no unit; otherwise build the normalized record with the
potency in nanomolar and the computed quality score.  The
`except (ValueError, TypeError)` branch (a non-numeric `standard_value`)
also yields `None`; numeric fields enter the model already parsed. -/
def normalize_activity (a : Activity) : Option Inhibitor :=
  match a.standard_value with
  | none => none
  | some v =>
      if v = 0 ∨ a.standard_type.getD "" = "" then none
      else
        match convert_to_nm v (pyUpper (a.standard_units.getD "")) with
        | none => none
        | some nm =>
            some { activity_id := a.activity_id,
                   molecule_chembl_id := a.molecule_chembl_id,
                   standard_type := a.standard_type.getD "",
                   standard_value_nm := some nm,
                   assay_description := a.assay_description.getD "",
                   assay_type := a.assay_type.getD "",
                   assay_organism := a.assay_organism,
                   quality_score := some (calculate_quality_score a),
                   confidence_score := a.confidence_score,
                   pchembl_value := a.pchembl_value,
                   data_validity_comment := a.data_validity_comment }

/-- The potency filter inside `get_inhibitors_for_target`
(chembl_client.py lines 216-229): skip records without
`standard_value_nm`; a falsy bound (`None` or `0`) applies no filtering
(`if max_ic50_nm and ...`, `if min_ic50_nm and ...`). -/
def potency_filter (maxB minB : Option ℚ) (acts : List Inhibitor) : List Inhibitor :=
  acts.filter fun a =>
    match a.standard_value_nm with
    | none => false
    | some v =>
        !(truthyQ maxB && decide (maxB.getD 0 < v)) &&
        !(truthyQ minB && decide (v < minB.getD 0))

/-- A ChEMBL target record: the two keys `get_inhibitors_for_target`
reads. -/
structure ChemblTarget : Type where
  target_chembl_id : Option String := none
  pref_name : Option String := none
  deriving DecidableEq

/-- Final ordering of `get_inhibitors_for_target` (chembl_client.py line
250): ascending by the Python tuple `(-quality_score, standard_value_nm)`
— higher quality first, then more potent; missing values default to `0`
and `+∞` respectively. -/
def inhSortLE (a b : Inhibitor) : Prop :=
  -qualityD a < -qualityD b ∨
    (-qualityD a = -qualityD b ∧ infLE a.standard_value_nm b.standard_value_nm)

instance : DecidableRel inhSortLE := fun _ _ =>
  inferInstanceAs (Decidable (_ ∨ _))

/-- `ChEMBLClient.get_inhibitors_for_target` (chembl_client.py lines
195-252).  `activitiesOf tid` models the awaited
`get_activities(tid, limit)` result and `molsOf` the molecule dictionary
built by `get_molecules`; both are deterministic parameters of the model.
Per matched target (top 3): filter by potency, then merge in target and
molecule metadata; finally the stable sort by `(-quality, potency)` and
the `[:limit]` cut. -/
def get_inhibitors_for_target (targets : List ChemblTarget)
    (activitiesOf : String → List Inhibitor) (molsOf : String → Option MolInfo)
    (maxB minB : Option ℚ) (limit : Nat) : List Inhibitor :=
  if targets.isEmpty then []
  else
    let all := (targets.take 3).flatMap fun t =>
      match t.target_chembl_id with
      | none => []
      | some tid =>
          (potency_filter maxB minB (activitiesOf tid)).map fun a =>
            { a with target_chembl_id := some tid,
                     target_name := t.pref_name,
                     molecule := a.molecule_chembl_id.bind molsOf }
    (List.insertionSort inhSortLE all).take limit

/-! ## OrchestrationCoordinator (`TherapeuticTargetAgent`, agent.py) -/

/-- Per-source gathering in `analyze_target` (agent.py lines 46-53): an
adapter that raises is caught and contributes an empty list. -/
def collectResult {α : Type} (r : Except String (List α)) : List α :=
  match r with
  | .ok l => l
  | .error _ => []

/-- `PDBClient.get_ligand_structures` (pdb_client.py lines 390-415): for
each id, ids longer than 6 characters are mapped to an empty structure
list and shorter (or missing, where `len(None)` raises `TypeError` into
the per-id `except`) ids are skipped; the code after the unconditional
`continue` is unreachable, so the result never contains a non-empty
list. -/
def get_ligand_structures (ids : List (Option String)) : List (String × List String) :=
  ids.filterMap fun i =>
    match i with
    | some id => if 6 < id.length then some (id, []) else none
    | none => none

/-- `ligand_structures.get(chembl_id, [])` (agent.py line 64). -/
def ligand_lookup (m : List (String × List String)) (k : Option String) : List String :=
  match k with
  | some id =>
      match m.find? (fun e => decide (e.1 = id)) with
      | some e => e.2
      | none => []
  | none => []

/-- Cross-validation step of `analyze_target` (agent.py lines 56-64):
when any inhibitors were found, attach `pdb_structures` to each from
`get_ligand_structures`. -/
def cross_validate (inhs : List Inhibitor) : List Inhibitor :=
  if inhs.isEmpty then inhs
  else
    let m := get_ligand_structures (inhs.map (·.molecule_chembl_id))
    inhs.map fun i => { i with pdb_structures := ligand_lookup m i.molecule_chembl_id }

/-- The report returned by `analyze_target` (agent.py lines 72-84),
without the free-text summary and timestamp. -/
structure TargetReport : Type where
  gene_symbol : String
  target_score : ℚ
  literature : List LiteratureRecord
  inhibitors : List Inhibitor
  structures : List StructureRec
  min_ic50_nm : Option ℚ := none
  max_ic50_nm : Option ℚ := none
  deriving DecidableEq

/-- `TherapeuticTargetAgent.analyze_target` (agent.py lines 36-84), from
the point where the IC50 bounds are settled: gather the three sources
(each `Except` is the outcome of one adapter, caught to an empty list on
error), cross-validate inhibitors with ligand structures, score, and
assemble the report. -/
def analyze_target (gene : String) (litRes : Except String (List LiteratureRecord))
    (inhRes : Except String (List Inhibitor))
    (structRes : Except String (List StructureRec))
    (minB maxB : Option ℚ) : TargetReport :=
  let lit := collectResult litRes
  let inhs := cross_validate (collectResult inhRes)
  let structs := collectResult structRes
  { gene_symbol := gene,
    target_score := calculate_target_score lit inhs structs,
    literature := lit,
    inhibitors := inhs,
    structures := structs,
    min_ic50_nm := minB,
    max_ic50_nm := maxB }

/-- Ordering used by `multi_target_analysis` (agent.py line 109):
`sort(key=..., reverse=True)` — stable descending by `target_score`. -/
def scoreDescLE (a b : TargetReport) : Prop := b.target_score ≤ a.target_score

instance : DecidableRel scoreDescLE := fun _ _ =>
  inferInstanceAs (Decidable (_ ≤ _))

/-- `TherapeuticTargetAgent.multi_target_analysis` (agent.py lines
86-123): collect the per-target analyses that resolve (a failing target
is skipped), then rank by descending `target_score` with a stable sort. -/
def multi_target_analysis (results : List (Except String TargetReport)) :
    List TargetReport :=
  List.insertionSort scoreDescLE (results.filterMap fun r => r.toOption)

/-! ## Scoring lemmas -/

lemma litPoints_nonneg (n : Nat) : 0 ≤ litPoints n := by
  unfold litPoints; split_ifs <;> norm_num

lemma potencyPoints_nonneg (b : Option ℚ) : 0 ≤ potencyPoints b := by
  cases b with
  | none => simp [potencyPoints]
  | some v => simp only [potencyPoints]; split_ifs <;> norm_num

lemma countPoints_nonneg (n : Nat) : 0 ≤ countPoints n := by
  unfold countPoints; split_ifs <;> norm_num

lemma avgInhQuality_nonneg (inhs : List Inhibitor)
    (h : ∀ i ∈ inhs, 0 ≤ qualityD i) : 0 ≤ avgInhQuality inhs := by
  unfold avgInhQuality
  apply div_nonneg _ (by positivity)
  apply List.sum_nonneg
  intro x hx
  obtain ⟨i, hi, rfl⟩ := List.mem_map.1 hx
  exact h i hi

lemma avgStructQuality_nonneg (structs : List StructureRec)
    (h : ∀ s ∈ structs, 0 ≤ structQualityD s) : 0 ≤ avgStructQuality structs := by
  unfold avgStructQuality
  apply div_nonneg _ (by positivity)
  apply List.sum_nonneg
  intro x hx
  obtain ⟨s, hs, rfl⟩ := List.mem_map.1 hx
  exact h s hs

/-- C1: for record sets carrying the data-model invariant that quality
scores lie in `[0, 1]`, `_calculate_target_score` returns a value in
`[0, 10]`, and it is a pure deterministic function: equal inputs give
equal scores. -/
theorem calculate_target_score_bounds (lit : List LiteratureRecord)
    (inhs : List Inhibitor) (structs : List StructureRec)
    (hq : ∀ i ∈ inhs, 0 ≤ qualityD i ∧ qualityD i ≤ 1)
    (hs : ∀ s ∈ structs, 0 ≤ structQualityD s ∧ structQualityD s ≤ 1) :
    0 ≤ calculate_target_score lit inhs structs ∧
      calculate_target_score lit inhs structs ≤ 10 ∧
      ∀ lit₂ inhs₂ structs₂, lit = lit₂ → inhs = inhs₂ → structs = structs₂ →
        calculate_target_score lit inhs structs =
          calculate_target_score lit₂ inhs₂ structs₂ := by
  refine ⟨?_, min_le_left _ _, ?_⟩
  · unfold calculate_target_score
    apply le_min (by norm_num)
    have h1 := litPoints_nonneg lit.length
    have h2 : (0 : ℚ) ≤
        if inhs.isEmpty then 0
        else potencyPoints (bestIC50 inhs) + countPoints inhs.length +
          avgInhQuality inhs * 1 := by
      split_ifs with h
      · exact le_refl 0
      · have := avgInhQuality_nonneg inhs (fun i hi => (hq i hi).1)
        have := potencyPoints_nonneg (bestIC50 inhs)
        have := countPoints_nonneg inhs.length
        linarith
    have h3 : (0 : ℚ) ≤
        if structs.isEmpty then 0
        else 1 + avgStructQuality structs * 1 +
          (if structs.any hasLigands then 1 else 0) := by
      split_ifs with h h2
      · exact le_refl 0
      all_goals
        have := avgStructQuality_nonneg structs (fun s hsm => (hs s hsm).1)
        linarith
    linarith
  · intro lit₂ inhs₂ structs₂ e1 e2 e3
    rw [e1, e2, e3]

/-- Witness for C1 at a concrete input. -/
theorem calculate_target_score_bounds_witness :
    0 ≤ calculate_target_score [⟨"p1"⟩]
        [{ standard_value_nm := some 5, quality_score := some (1/2) }]
        [{ pdb_id := "1M17", quality_score := some 1, ligands := ["AQ4"] }] ∧
      calculate_target_score [⟨"p1"⟩]
        [{ standard_value_nm := some 5, quality_score := some (1/2) }]
        [{ pdb_id := "1M17", quality_score := some 1, ligands := ["AQ4"] }] ≤ 10 ∧
      ∀ lit₂ inhs₂ structs₂, [⟨"p1"⟩] = lit₂ →
        [{ standard_value_nm := some 5, quality_score := some (1/2) }] = inhs₂ →
        [{ pdb_id := "1M17", quality_score := some 1, ligands := ["AQ4"] }] = structs₂ →
        calculate_target_score [⟨"p1"⟩]
          [{ standard_value_nm := some 5, quality_score := some (1/2) }]
          [{ pdb_id := "1M17", quality_score := some 1, ligands := ["AQ4"] }] =
          calculate_target_score lit₂ inhs₂ structs₂ :=
  calculate_target_score_bounds _ _ _ (by norm_num [qualityD])
    (by norm_num [structQualityD])

/-! ## Monotonicity lemmas for the scorer -/

lemma infLE_refl (a : Option ℚ) : infLE a a := by
  cases a <;> simp [infLE, infLEb]

lemma minOpt_mono {a a' b b' : Option ℚ} (ha : infLE a a') (hb : infLE b b') :
    infLE (minOpt a b) (minOpt a' b') := by
  cases a <;> cases a' <;> cases b <;> cases b' <;>
    simp_all [infLE, infLEb, minOpt]

lemma infLE_minOpt_right (a b : Option ℚ) : infLE (minOpt a b) b := by
  cases a <;> cases b <;> simp [infLE, infLEb, minOpt, min_le_right]

lemma bestIC50_replace (pre post : List Inhibitor) (r r' : Inhibitor)
    (h : infLE r'.standard_value_nm r.standard_value_nm) :
    infLE (bestIC50 (pre ++ r' :: post)) (bestIC50 (pre ++ r :: post)) := by
  induction pre with
  | nil => exact minOpt_mono h (infLE_refl _)
  | cons a pre ih => exact minOpt_mono (infLE_refl _) ih

lemma potencyPoints_anti {a b : Option ℚ} (h : infLE a b) :
    potencyPoints b ≤ potencyPoints a := by
  cases a with
  | none =>
      cases b with
      | none => exact le_refl _
      | some y => simp [infLE, infLEb] at h
  | some x =>
      cases b with
      | none => simpa [potencyPoints] using potencyPoints_nonneg (some x)
      | some y =>
          simp only [infLE, infLEb, decide_eq_true_eq] at h
          simp only [potencyPoints]
          split_ifs <;> linarith

lemma countPoints_mono {m n : Nat} (h : m ≤ n) : countPoints m ≤ countPoints n := by
  unfold countPoints
  split_ifs <;> first | (exfalso; omega) | norm_num

lemma avgInhQuality_replace (pre post : List Inhibitor) (r r' : Inhibitor)
    (h : qualityD r ≤ qualityD r') :
    avgInhQuality (pre ++ r :: post) ≤ avgInhQuality (pre ++ r' :: post) := by
  unfold avgInhQuality
  have hlen : (pre ++ r' :: post).length = (pre ++ r :: post).length := by simp
  rw [hlen]
  gcongr
  simp only [List.map_append, List.map_cons, List.sum_append, List.sum_cons]
  linarith

/-- Adding a value at least the current average never lowers the
average: `S/n ≤ q → S/n ≤ (q + S)/(n + 1)` for `n ≥ 1`. -/
lemma avg_cons_ge (S q : ℚ) (n : ℕ) (hn : 1 ≤ n) (h : S / n ≤ q) :
    S / n ≤ (q + S) / (n + 1) := by
  have hn0 : (0 : ℚ) < n := by exact_mod_cast hn
  have hq : S ≤ q * n := (div_le_iff₀ hn0).mp h
  rw [div_le_div_iff₀ hn0 (by positivity)]
  nlinarith

lemma avgInhQuality_cons (r : Inhibitor) (inhs : List Inhibitor) (hne : inhs ≠ [])
    (h : avgInhQuality inhs ≤ qualityD r) :
    avgInhQuality inhs ≤ avgInhQuality (r :: inhs) := by
  have hlen : 1 ≤ inhs.length := List.length_pos.mpr hne
  have := avg_cons_ge ((inhs.map qualityD).sum) (qualityD r) inhs.length hlen h
  simpa [avgInhQuality, List.length_cons, Nat.cast_add, Nat.cast_one, add_comm] using this

lemma avgStructQuality_cons (s : StructureRec) (structs : List StructureRec)
    (hne : structs ≠ []) (h : avgStructQuality structs ≤ structQualityD s) :
    avgStructQuality structs ≤ avgStructQuality (s :: structs) := by
  have hlen : 1 ≤ structs.length := List.length_pos.mpr hne
  have := avg_cons_ge ((structs.map structQualityD).sum) (structQualityD s)
    structs.length hlen h
  simpa [avgStructQuality, List.length_cons, Nat.cast_add, Nat.cast_one, add_comm]
    using this

/-- C2, counterexample to the claim as stated: appending a strictly more
potent (but lower-quality) inhibitor to `[{1 nM, quality 1}]` lowers the
score from 3 to 2.5 — adding a strictly better (more potent) record can
decrease `_calculate_target_score`. -/
theorem calculate_target_score_add_potent_decreases :
    calculate_target_score []
        [{ standard_value_nm := some 1, quality_score := some 1 },
         { standard_value_nm := some (1/2), quality_score := some 0 }] [] <
      calculate_target_score []
        [{ standard_value_nm := some 1, quality_score := some 1 }] [] ∧
    (1 / 2 : ℚ) < 1 := by
  constructor
  · norm_num [calculate_target_score, litPoints, potencyPoints, countPoints,
      avgInhQuality, qualityD, bestIC50, minOpt]
  · norm_num

/-- C2 (amended): replacing an inhibitor by one of equal-or-better
potency (`none` reads as `+∞`) and equal-or-better quality never lowers
the score; adding an inhibitor whose quality score is at least the
current average never lowers the score (whatever its potency); likewise
adding a structure record of at-least-average quality.  Adding a merely
more-potent record can lower the score
(`calculate_target_score_add_potent_decreases`). -/
theorem calculate_target_score_monotone (lit : List LiteratureRecord)
    (inhs : List Inhibitor) (structs : List StructureRec) :
    (∀ pre post (r r' : Inhibitor),
        infLE r'.standard_value_nm r.standard_value_nm →
        qualityD r ≤ qualityD r' →
        calculate_target_score lit (pre ++ r :: post) structs ≤
          calculate_target_score lit (pre ++ r' :: post) structs) ∧
    (∀ r : Inhibitor, inhs ≠ [] → avgInhQuality inhs ≤ qualityD r →
        calculate_target_score lit inhs structs ≤
          calculate_target_score lit (r :: inhs) structs) ∧
    (∀ s : StructureRec, structs ≠ [] → avgStructQuality structs ≤ structQualityD s →
        calculate_target_score lit inhs structs ≤
          calculate_target_score lit inhs (s :: structs)) := by
  refine ⟨?_, ?_, ?_⟩
  · intro pre post r r' hv hq
    unfold calculate_target_score
    apply min_le_min le_rfl
    have e1 : (pre ++ r :: post).isEmpty = false := by simp
    have e2 : (pre ++ r' :: post).isEmpty = false := by simp
    rw [e1, e2]
    simp only [Bool.false_eq_true, if_false]
    have hbest := potencyPoints_anti (bestIC50_replace pre post r r' hv)
    have hcount : (pre ++ r :: post).length = (pre ++ r' :: post).length := by simp
    have havg := avgInhQuality_replace pre post r r' hq
    rw [hcount]
    linarith
  · intro r hne havg
    unfold calculate_target_score
    apply min_le_min le_rfl
    have e1 : inhs.isEmpty = false := by
      cases inhs with
      | nil => exact absurd rfl hne
      | cons a l => rfl
    have e2 : (r :: inhs).isEmpty = false := rfl
    rw [e1, e2]
    simp only [Bool.false_eq_true, if_false]
    have hbest : potencyPoints (bestIC50 inhs) ≤ potencyPoints (bestIC50 (r :: inhs)) := by
      apply potencyPoints_anti
      exact infLE_minOpt_right r.standard_value_nm (bestIC50 inhs)
    have hcount : countPoints inhs.length ≤ countPoints (r :: inhs).length :=
      countPoints_mono (by simp)
    have havg2 := avgInhQuality_cons r inhs hne havg
    linarith
  · intro s hne havg
    unfold calculate_target_score
    apply min_le_min le_rfl
    have e1 : structs.isEmpty = false := by
      cases structs with
      | nil => exact absurd rfl hne
      | cons a l => rfl
    have e2 : (s :: structs).isEmpty = false := rfl
    rw [e1, e2]
    simp only [Bool.false_eq_true, if_false]
    have havg2 := avgStructQuality_cons s structs hne havg
    have hlig : (if structs.any hasLigands then (1:ℚ) else 0) ≤
        (if (s :: structs).any hasLigands then (1:ℚ) else 0) := by
      split_ifs with ha hb
      · norm_num
      · exact absurd (by simp [List.any_cons, ha]) hb
      · norm_num
      · norm_num
    linarith

/-- Witness for the amended C2 at concrete inputs: a replacement by a
more potent, higher-quality record, and at-least-average-quality
additions. -/
theorem calculate_target_score_monotone_witness :
    (calculate_target_score []
        ([] ++ { standard_value_nm := some 20, quality_score := some 0 } ::
          [{ standard_value_nm := some 5, quality_score := some 1 }]) [] ≤
      calculate_target_score []
        ([] ++ { standard_value_nm := some 10, quality_score := some 1 } ::
          [{ standard_value_nm := some 5, quality_score := some 1 }]) []) ∧
    (calculate_target_score []
        [{ standard_value_nm := some 5, quality_score := some 1 }] [] ≤
      calculate_target_score []
        ({ standard_value_nm := none, quality_score := some 1 } ::
          [{ standard_value_nm := some 5, quality_score := some 1 }]) []) ∧
    (calculate_target_score [] [] [{ pdb_id := "1M17", quality_score := some 0 }] ≤
      calculate_target_score [] []
        ({ pdb_id := "4HJO", quality_score := some 1 } ::
          [{ pdb_id := "1M17", quality_score := some 0 }])) :=
  ⟨(calculate_target_score_monotone [] [] []).1 []
      [{ standard_value_nm := some 5, quality_score := some 1 }] _ _
      (by norm_num [infLE, infLEb]) (by norm_num [qualityD]),
   (calculate_target_score_monotone []
      [{ standard_value_nm := some 5, quality_score := some 1 }] []).2.1 _
      (by simp) (by norm_num [avgInhQuality, qualityD]),
   (calculate_target_score_monotone [] []
      [{ pdb_id := "1M17", quality_score := some 0 }]).2.2 _
      (by simp) (by norm_num [avgStructQuality, structQualityD])⟩

/-- C3: fault isolation in `analyze_target`.  When exactly one adapter
raises, the report still comes back with that source's list empty and the
other two sources exactly as in the all-success run; when all three
adapters raise, a report is still produced, with `target_score = 0`. -/
theorem analyze_target_fault_isolation (gene : String)
    (l : List LiteratureRecord) (i : List Inhibitor) (s : List StructureRec)
    (e e₁ e₂ e₃ : String) (minB maxB : Option ℚ) :
    ((analyze_target gene (.ok l) (.ok i) (.error e) minB maxB).structures = [] ∧
      (analyze_target gene (.ok l) (.ok i) (.error e) minB maxB).literature = l ∧
      (analyze_target gene (.ok l) (.ok i) (.error e) minB maxB).inhibitors =
        (analyze_target gene (.ok l) (.ok i) (.ok s) minB maxB).inhibitors) ∧
    ((analyze_target gene (.error e) (.ok i) (.ok s) minB maxB).literature = [] ∧
      (analyze_target gene (.error e) (.ok i) (.ok s) minB maxB).inhibitors =
        (analyze_target gene (.ok l) (.ok i) (.ok s) minB maxB).inhibitors ∧
      (analyze_target gene (.error e) (.ok i) (.ok s) minB maxB).structures = s) ∧
    ((analyze_target gene (.ok l) (.error e) (.ok s) minB maxB).inhibitors = [] ∧
      (analyze_target gene (.ok l) (.error e) (.ok s) minB maxB).literature = l ∧
      (analyze_target gene (.ok l) (.error e) (.ok s) minB maxB).structures = s) ∧
    (analyze_target gene (.error e₁) (.error e₂) (.error e₃) minB maxB).target_score
      = 0 := by
  refine ⟨⟨rfl, rfl, rfl⟩, ⟨rfl, rfl, rfl⟩, ⟨rfl, rfl, rfl⟩, ?_⟩
  norm_num [analyze_target, collectResult, cross_validate, calculate_target_score,
    litPoints]

/-- C4: the cache's two clocks disagree, so the claimed round-trip and
TTL behavior holds only on UTC hosts.  `set` stamps
`expires_at = datetime.now() + ttl` in naive **local** time, but `get`
guards with SQLite's `datetime('now')`, which is **UTC**.  Evaluating
the model (all times in hours, `ttl = 1`): on a host at UTC−8 a freshly
set entry is an *immediate miss*; on a host at UTC+2 the entry is still
a *hit two hours after `set`*, one hour past its TTL; only at offset 0
do set-then-get return the payload and the post-TTL read miss, as the
claim describes. -/
theorem cache_set_local_get_utc_clock_mismatch :
    cache_get (cache_set [] (-8) 0 "https://x.y/a" [("q", .jnum 1)] (.jstr "v") 1) 0
        "https://x.y/a" [("q", .jnum 1)] = none ∧
    cache_get (cache_set [] 2 0 "https://x.y/a" [("q", .jnum 1)] (.jstr "v") 1) 2
        "https://x.y/a" [("q", .jnum 1)] = some (.jstr "v") ∧
    cache_get (cache_set [] 0 0 "https://x.y/a" [("q", .jnum 1)] (.jstr "v") 1) 0
        "https://x.y/a" [("q", .jnum 1)] = some (.jstr "v") ∧
    cache_get (cache_set [] 0 0 "https://x.y/a" [("q", .jnum 1)] (.jstr "v") 1) 2
        "https://x.y/a" [("q", .jnum 1)] = none := by
  refine ⟨?_, ?_, ?_, ?_⟩
  · have h : ¬ (0:ℚ) < 0 + (-8) + 1 := by norm_num
    simp [cache_get, cache_set, h]
  · have h : (2:ℚ) < 0 + 2 + 1 := by norm_num
    simp [cache_get, cache_set, h]
  · have h : (0:ℚ) < 0 + 0 + 1 := by norm_num
    simp [cache_get, cache_set, h]
  · have h : ¬ (2:ℚ) < 0 + 0 + 1 := by norm_num
    simp [cache_get, cache_set, h]

/-! ## Fingerprint lemmas -/

instance : IsTotal (String × J) keyLE := ⟨fun a b => le_total a.1 b.1⟩

instance : IsTrans (String × J) keyLE := ⟨fun _ _ _ h1 h2 => le_trans h1 h2⟩

lemma sortVals_eq_map (l : List (String × J)) :
    sortVals l = l.map (fun kv => (kv.1, sortJ kv.2)) := by
  induction l with
  | nil => rfl
  | cons kv t ih => cases kv; simp [sortVals, ih]

lemma sortVals_map_fst (l : List (String × J)) :
    (sortVals l).map Prod.fst = l.map Prod.fst := by
  rw [sortVals_eq_map, List.map_map]
  rfl

/-- Two permuted association lists with no duplicate keys have the same
key-sorted form: sortedness plus the key discipline pin the order down. -/
lemma eq_of_perm_sorted_nodupkeys :
    ∀ {l₁ l₂ : List (String × J)}, l₁.Perm l₂ → l₁.Sorted keyLE → l₂.Sorted keyLE →
      (l₁.map Prod.fst).Nodup → l₁ = l₂ := by
  intro l₁
  induction l₁ with
  | nil =>
      intro l₂ hp _ _ _
      exact (List.Perm.eq_nil hp.symm).symm
  | cons a t ih =>
      intro l₂ hp hs₁ hs₂ hnd
      cases l₂ with
      | nil =>
          exfalso
          have := hp.length_eq
          simp at this
      | cons b t₂ =>
          have hs₁' := List.sorted_cons.mp hs₁
          have hs₂' := List.sorted_cons.mp hs₂
          have hab : a = b := by
            have ha : a ∈ b :: t₂ := hp.subset (List.mem_cons_self a t)
            have hb : b ∈ a :: t := hp.symm.subset (List.mem_cons_self b t₂)
            rcases List.mem_cons.mp ha with h1 | h1
            · exact h1
            rcases List.mem_cons.mp hb with h2 | h2
            · exact h2.symm
            · exfalso
              have hba : b.1 ≤ a.1 := hs₂'.1 a h1
              have hab2 : a.1 ≤ b.1 := hs₁'.1 b h2
              have heq : a.1 = b.1 := le_antisymm hab2 hba
              have : a.1 ∈ t.map Prod.fst := heq ▸ List.mem_map_of_mem Prod.fst h2
              exact (List.nodup_cons.mp hnd).1 this
          subst hab
          have ht : t.Perm t₂ := hp.cons_inv
          rw [ih ht hs₁'.2 hs₂'.2 (List.nodup_cons.mp hnd).2]

/-- C5: the request fingerprint is a deterministic digest of the
key-sorted serialization — two parameter dictionaries equal as maps (a
permutation with no duplicate keys) give the same cache key, regardless
of insertion order — while a GET for `params` and a POST with the same
payload key differently, because the POST key serializes the wrapper
`{"method": "POST", "json": params}` (http_client.py line 78), which is
strictly longer. -/
theorem make_key_deterministic_and_method_distinct (url : String)
    (p p₁ p₂ : List (String × J)) (hperm : p₁.Perm p₂)
    (hnd : (p₁.map Prod.fst).Nodup) :
    make_key url p₁ = make_key url p₂ ∧
    make_key url p ≠ make_key url [("method", .jstr "POST"), ("json", .jobj p)] := by
  constructor
  · have hsv : (sortVals p₁).Perm (sortVals p₂) := by
      rw [sortVals_eq_map, sortVals_eq_map]
      exact hperm.map _
    have hsort : List.insertionSort keyLE (sortVals p₁) =
        List.insertionSort keyLE (sortVals p₂) := by
      apply eq_of_perm_sorted_nodupkeys
      · exact (List.perm_insertionSort _ _).trans
          (hsv.trans (List.perm_insertionSort _ _).symm)
      · exact List.sorted_insertionSort keyLE (sortVals p₁)
      · exact List.sorted_insertionSort keyLE (sortVals p₂)
      · have hp : ((List.insertionSort keyLE (sortVals p₁)).map Prod.fst).Perm
            (p₁.map Prod.fst) := by
          have := (List.perm_insertionSort keyLE (sortVals p₁)).map Prod.fst
          rwa [sortVals_map_fst] at this
        exact hp.nodup_iff.mpr hnd
    simp only [make_key, sortJ, hsort]
  · intro h
    have hkey : ¬ keyLE ("method", J.jstr "POST") ("json", sortJ (J.jobj p)) := by
      simp only [keyLE]
      rw [String.le_iff_toList_le]
      decide
    have e1 : List.insertionSort keyLE
        (sortVals [("method", J.jstr "POST"), ("json", J.jobj p)]) =
        [("json", sortJ (J.jobj p)), ("method", J.jstr "POST")] := by
      have e0 : sortJ (J.jstr "POST") = J.jstr "POST" := by simp [sortJ]
      simp only [sortVals, List.insertionSort, List.orderedInsert, e0]
      rw [if_neg hkey]
    have hlen := congrArg List.length h
    simp only [make_key, sortJ, e1, serJ, serEntries, List.length_append,
      List.length_cons, List.length_nil] at hlen
    omega

/-- Witness for C5: a two-key dictionary in both insertion orders. -/
theorem make_key_deterministic_and_method_distinct_witness :
    make_key "https://x.y/a" [("b", .jnum 2), ("a", .jnum 1)] =
      make_key "https://x.y/a" [("a", .jnum 1), ("b", .jnum 2)] ∧
    make_key "https://x.y/a" [("b", .jnum 2), ("a", .jnum 1)] ≠
      make_key "https://x.y/a"
        [("method", .jstr "POST"), ("json", .jobj [("b", .jnum 2), ("a", .jnum 1)])] :=
  make_key_deterministic_and_method_distinct "https://x.y/a"
    [("b", .jnum 2), ("a", .jnum 1)] [("b", .jnum 2), ("a", .jnum 1)]
    [("a", .jnum 1), ("b", .jnum 2)]
    (List.Perm.swap ("a", J.jnum 1) ("b", J.jnum 2) []) (by decide)

/-- C6, counterexample to the claim as stated: an activity with a numeric
value (5) but an unrecognized unit ("XX") is *dropped* by
`_normalize_activity` (`_convert_to_nm` returns `None`), although the
claim — "drops exactly those records missing both a numeric value and a
recognized unit" — would keep it. -/
theorem normalize_activity_drops_valued_record :
    normalize_activity
      { standard_value := some 5, standard_units := some "XX",
        standard_type := some "IC50" } = none ∧
    (some 5 : Option ℚ) ≠ none := by
  constructor
  · simp [normalize_activity, convert_to_nm, conversion_factor, pyUpper, pyUpperChar]
  · simp

lemma convert_to_nm_eval (v f : ℚ) (units target : String)
    (hu : pyUpper (String.mk (units.data.map fun c => if c = 'μ' then 'U' else c)) =
      target)
    (hf : conversion_factor target = some f) :
    convert_to_nm v units = some (v * f) := by
  simp only [convert_to_nm]
  rw [hu, hf]

lemma convert_to_nm_eval_none (v : ℚ) (units target : String)
    (hu : pyUpper (String.mk (units.data.map fun c => if c = 'μ' then 'U' else c)) =
      target)
    (hf : conversion_factor target = none) :
    convert_to_nm v units = none := by
  simp only [convert_to_nm]
  rw [hu, hf]

lemma conversion_factor_PM : conversion_factor "PM" = some (1/1000) := by
  unfold conversion_factor
  rw [if_neg (by decide), if_neg (by decide), if_neg (by decide), if_neg (by decide),
    if_pos rfl]
  norm_num

lemma conversion_factor_FM : conversion_factor "FM" = some (1/1000000) := by
  unfold conversion_factor
  rw [if_neg (by decide), if_neg (by decide), if_neg (by decide), if_neg (by decide),
    if_neg (by decide), if_pos rfl]
  norm_num

/-- C6 (amended): `_convert_to_nm` multiplies by the fixed table
`nM:1, uM:1000, mM:1e6, M:1e9, pM:0.001, fM:1e-6` case-insensitively and
fails on an unrecognized unit; and `_normalize_activity` drops exactly
those records whose `standard_value` is falsy (missing or zero), whose
`standard_type` is falsy, or whose unit is not recognized by the table —
keeping all others. -/
theorem convert_to_nm_table_and_normalize_drop :
    (convert_to_nm 1 "uM" = some 1000 ∧ convert_to_nm 1 "pM" = some (1/1000) ∧
      convert_to_nm 1 "XX" = none) ∧
    (∀ v : ℚ,
      convert_to_nm v "nM" = some (v * 1) ∧ convert_to_nm v "NM" = some (v * 1) ∧
      convert_to_nm v "uM" = some (v * 1000) ∧
      convert_to_nm v "UM" = some (v * 1000) ∧
      convert_to_nm v "μM" = some (v * 1000) ∧
      convert_to_nm v "mM" = some (v * 1000000) ∧
      convert_to_nm v "MM" = some (v * 1000000) ∧
      convert_to_nm v "M" = some (v * 1000000000) ∧
      convert_to_nm v "pM" = some (v * (1/1000)) ∧
      convert_to_nm v "PM" = some (v * (1/1000)) ∧
      convert_to_nm v "fM" = some (v * (1/1000000)) ∧
      convert_to_nm v "FM" = some (v * (1/1000000))) ∧
    (∀ a : Activity, normalize_activity a = none ↔
      truthyQ a.standard_value = false ∨ a.standard_type.getD "" = "" ∨
      convert_to_nm (a.standard_value.getD 0)
        (pyUpper (a.standard_units.getD "")) = none) := by
  refine ⟨⟨?_, ?_, ?_⟩, ?_, ?_⟩
  · simpa using convert_to_nm_eval 1 1000 "uM" "UM" (by decide) (by decide)
  · simpa using convert_to_nm_eval 1 (1/1000) "pM" "PM" (by decide) conversion_factor_PM
  · exact convert_to_nm_eval_none 1 "XX" "XX" (by decide) (by decide)
  · intro v
    exact ⟨convert_to_nm_eval v 1 "nM" "NM" (by decide) (by decide),
      convert_to_nm_eval v 1 "NM" "NM" (by decide) (by decide),
      convert_to_nm_eval v 1000 "uM" "UM" (by decide) (by decide),
      convert_to_nm_eval v 1000 "UM" "UM" (by decide) (by decide),
      convert_to_nm_eval v 1000 "μM" "UM" (by decide) (by decide),
      convert_to_nm_eval v 1000000 "mM" "MM" (by decide) (by decide),
      convert_to_nm_eval v 1000000 "MM" "MM" (by decide) (by decide),
      convert_to_nm_eval v 1000000000 "M" "M" (by decide) (by decide),
      convert_to_nm_eval v (1/1000) "pM" "PM" (by decide) conversion_factor_PM,
      convert_to_nm_eval v (1/1000) "PM" "PM" (by decide) conversion_factor_PM,
      convert_to_nm_eval v (1/1000000) "fM" "FM" (by decide) conversion_factor_FM,
      convert_to_nm_eval v (1/1000000) "FM" "FM" (by decide) conversion_factor_FM⟩
  · intro a
    unfold normalize_activity
    cases hv : a.standard_value with
    | none => simp [truthyQ]
    | some v =>
        by_cases h0 : v = 0
        · subst h0
          simp [truthyQ]
        · by_cases ht : a.standard_type.getD "" = ""
          · simp [truthyQ, h0, ht]
          · cases hc : convert_to_nm v (pyUpper (a.standard_units.getD "")) with
            | none => simp [truthyQ, h0, ht, hc]
            | some nm => simp [truthyQ, h0, ht, hc]

/-- C10: in `get_inhibitors_for_target` a potency bound of `0` is falsy
in Python (`if max_ic50_nm and ...`), so `max_ic50_nm = 0` (and likewise
`min_ic50_nm = 0`) applies no filtering for that bound and yields exactly
the records of the `None` call — not the empty list that excluding every
value `> 0` would produce. -/
theorem get_inhibitors_zero_bound_is_no_filter (targets : List ChemblTarget)
    (activitiesOf : String → List Inhibitor) (molsOf : String → Option MolInfo)
    (maxB minB : Option ℚ) (limit : Nat) :
    get_inhibitors_for_target targets activitiesOf molsOf (some 0) minB limit =
      get_inhibitors_for_target targets activitiesOf molsOf none minB limit ∧
    get_inhibitors_for_target targets activitiesOf molsOf maxB (some 0) limit =
      get_inhibitors_for_target targets activitiesOf molsOf maxB none limit := by
  have hz : truthyQ (some 0) = false := by simp [truthyQ]
  have hmax : ∀ mb acts, potency_filter (some 0) mb acts = potency_filter none mb acts := by
    intro mb acts
    unfold potency_filter
    apply List.filter_congr
    intro a _
    cases a.standard_value_nm <;> simp [truthyQ]
  have hmin : ∀ mb acts, potency_filter mb (some 0) acts = potency_filter mb none acts := by
    intro mb acts
    unfold potency_filter
    apply List.filter_congr
    intro a _
    cases a.standard_value_nm <;> simp [truthyQ]
  constructor
  · unfold get_inhibitors_for_target
    simp only [hmax]
  · unfold get_inhibitors_for_target
    simp only [hmin]

/-- C7, counterexample to the claim as stated: a cache hit whose stored
payload is the empty object `{}` is falsy in Python
(`if cached_response:`), so `RateLimitedClient.get` does *not* return it —
it proceeds to the network even though the cache store returned a stored
payload. -/
theorem client_get_empty_payload_hit_not_returned :
    cache_get [(make_key "https://u.v/w" [], J.jobj [], 1)] 0 "https://u.v/w" [] =
      some (J.jobj []) ∧
    GetResult.networkCalled
      (client_get [(make_key "https://u.v/w" [], J.jobj [], 1)] initial_rate_limits 0 0
        "https://u.v/w" [] 24
        (fun _ => .response 200 "application/json" (J.jobj [("a", J.jnum 1)]) "")).1
      = true := by
  exact ⟨rfl, rfl⟩

/-- C7 (amended): on a cache hit with a truthy (non-empty) payload,
`RateLimitedClient.get` returns the cached payload immediately: exactly
one attempt, no network call, no rate-limit enforcement, and the cache
and per-domain throttle state are returned unchanged.  (A falsy cached
payload such as `{}` is instead treated as a miss:
`client_get_empty_payload_hit_not_returned`.) -/
theorem client_get_truthy_hit_short_circuit (st : CacheState) (thr : Throttle)
    (tz now : ℚ) (url : String) (params : List (String × J)) (ttl : ℚ)
    (nets : Nat → NetOutcome) (v : J)
    (hhit : cache_get st now url params = some v) (ht : truthyJ v = true) :
    client_get st thr tz now url params ttl nets =
      (⟨.ok v, st, thr, false, false⟩, 1) := by
  unfold client_get
  have hatt : get_attempt st thr tz now url params ttl (nets 0) =
      ⟨.ok v, st, thr, false, false⟩ := by
    unfold get_attempt
    simp [hhit, ht]
  simp only [get_with_retry]
  rw [hatt]

/-- Witness for the amended C7: a truthy cached payload is returned with
no network call and unchanged state. -/
theorem client_get_truthy_hit_short_circuit_witness :
    client_get [(make_key "https://u.v/w" [], J.jstr "ok", 1)] initial_rate_limits 0 0
        "https://u.v/w" [] 24 (fun _ => NetOutcome.timeout) =
      (⟨.ok (J.jstr "ok"), [(make_key "https://u.v/w" [], J.jstr "ok", 1)],
        initial_rate_limits, false, false⟩, 1) :=
  client_get_truthy_hit_short_circuit
    [(make_key "https://u.v/w" [], J.jstr "ok", 1)] initial_rate_limits 0 0
    "https://u.v/w" [] 24 (fun _ => NetOutcome.timeout) (J.jstr "ok") rfl rfl

/-- C8: a network response with a non-2xx status makes
`RateLimitedClient.get` fail immediately with the HTTP-status error:
`raise_for_status()` raises, the error is not among the retried exception
types (`retryable` is false for it), so exactly one attempt is made, and
nothing is written to the cache. -/
theorem client_get_non2xx_fails_immediately (st : CacheState) (thr : Throttle)
    (tz now : ℚ) (url : String) (params : List (String × J)) (ttl : ℚ)
    (status : Nat) (ct bt : String) (body : J) (nets : Nat → NetOutcome)
    (hmiss : ∀ v, cache_get st now url params = some v → truthyJ v = false)
    (hstatus : ¬(200 ≤ status ∧ status < 300))
    (hnet : nets 0 = .response status ct body bt) :
    client_get st thr tz now url params ttl nets =
      (⟨.error (.httpStatus status), st,
        (enforce_rate_limit thr (domainOf url) now).2, true, true⟩, 1) := by
  unfold client_get
  have hmissPath : get_attempt_miss st thr tz now url params ttl (nets 0) =
      ⟨.error (.httpStatus status), st,
        (enforce_rate_limit thr (domainOf url) now).2, true, true⟩ := by
    unfold get_attempt_miss
    rw [hnet]
    simp only []
    rw [if_neg hstatus]
  have hatt : get_attempt st thr tz now url params ttl (nets 0) =
      ⟨.error (.httpStatus status), st,
        (enforce_rate_limit thr (domainOf url) now).2, true, true⟩ := by
    unfold get_attempt
    cases hc : cache_get st now url params with
    | none => simpa [hc] using hmissPath
    | some v =>
        have htr := hmiss v hc
        simpa [hc, htr] using hmissPath
  simp only [get_with_retry]
  rw [hatt]
  simp [retryable]

/-- Witness for C8: an empty cache and a 404 response — one attempt, an
`httpStatus 404` error, and the cache left empty. -/
theorem client_get_non2xx_fails_immediately_witness :
    client_get [] initial_rate_limits 0 0 "https://u.v/w" [] 24
        (fun _ => .response 404 "application/json" (J.jobj []) "") =
      (⟨.error (.httpStatus 404), [],
        (enforce_rate_limit initial_rate_limits (domainOf "https://u.v/w") 0).2,
        true, true⟩, 1) :=
  client_get_non2xx_fails_immediately [] initial_rate_limits 0 0 "https://u.v/w" [] 24
    404 "application/json" "" (J.jobj [])
    (fun _ => .response 404 "application/json" (J.jobj []) "")
    (by simp [cache_get]) (by omega) rfl

/-! ## Ranking lemmas

Stability of the Python `list.sort(key=..., reverse=True)` is expressed
through the indexed list `rs.enum`: the sorted indexed list is pairwise
strictly ordered by "higher score, or equal score and smaller original
index", which determines the output order completely. -/

/-- The descending-score relation lifted to indexed reports. -/
def enumScoreDescLE (a b : Nat × TargetReport) : Prop :=
  b.2.target_score ≤ a.2.target_score

instance : DecidableRel enumScoreDescLE := fun _ _ =>
  inferInstanceAs (Decidable (_ ≤ _))

/-- Strict order that characterizes a stable descending sort: strictly
higher score first, ties by original position. -/
def enumLexStrict (a b : Nat × TargetReport) : Prop :=
  b.2.target_score < a.2.target_score ∨
    (a.2.target_score = b.2.target_score ∧ a.1 < b.1)

instance : IsTotal TargetReport scoreDescLE :=
  ⟨fun a b => (le_total b.target_score a.target_score).imp id id⟩

instance : IsTrans TargetReport scoreDescLE :=
  ⟨fun _ _ _ h1 h2 => le_trans h2 h1⟩

lemma enumLexStrict_score_le {a b : Nat × TargetReport} (h : enumLexStrict a b) :
    b.2.target_score ≤ a.2.target_score := by
  rcases h with h | ⟨h, _⟩
  · exact le_of_lt h
  · exact le_of_eq h.symm

lemma orderedInsert_pairwise_lex (x : Nat × TargetReport)
    (l : List (Nat × TargetReport)) (hl : l.Pairwise enumLexStrict)
    (hx : ∀ y ∈ l, x.1 < y.1) :
    (List.orderedInsert enumScoreDescLE x l).Pairwise enumLexStrict := by
  induction l with
  | nil => simp
  | cons y t ih =>
      by_cases h : enumScoreDescLE x y
      · rw [List.orderedInsert, if_pos h]
        constructor
        · intro z hz
          have hzy : z = y ∨ z ∈ t := List.mem_cons.mp hz
          have hscore : z.2.target_score ≤ x.2.target_score := by
            rcases hzy with rfl | hzt
            · exact h
            · exact le_trans (enumLexStrict_score_le ((List.pairwise_cons.mp hl).1 z hzt)) h
          rcases lt_or_eq_of_le hscore with hlt | heq
          · exact Or.inl hlt
          · exact Or.inr ⟨heq.symm, hx z hz⟩
        · exact hl
      · rw [List.orderedInsert, if_neg h]
        have hyx : x.2.target_score < y.2.target_score := not_le.mp h
        constructor
        · intro z hz
          rcases (List.mem_orderedInsert _).mp hz with rfl | hzt
          · exact Or.inl hyx
          · exact (List.pairwise_cons.mp hl).1 z hzt
        · exact ih (List.pairwise_cons.mp hl).2 (fun y hy => hx y (List.mem_cons_of_mem _ hy))

lemma insertionSort_pairwise_lex (l : List (Nat × TargetReport))
    (h : l.Pairwise (fun a b => a.1 < b.1)) :
    (List.insertionSort enumScoreDescLE l).Pairwise enumLexStrict := by
  induction l with
  | nil => simp
  | cons x t ih =>
      rw [List.insertionSort]
      apply orderedInsert_pairwise_lex
      · exact ih (List.pairwise_cons.mp h).2
      · intro y hy
        have hyt : y ∈ t := (List.perm_insertionSort _ t).subset hy
        exact (List.pairwise_cons.mp h).1 y hyt

lemma enumFrom_pairwise_lt (l : List TargetReport) :
    ∀ n, (List.enumFrom n l).Pairwise (fun a b => a.1 < b.1) := by
  induction l with
  | nil => intro n; simp
  | cons x t ih =>
      intro n
      rw [List.enumFrom]
      constructor
      · intro y hy
        have := List.le_fst_of_mem_enumFrom hy
        omega
      · exact ih (n + 1)

lemma orderedInsert_map_snd (x : Nat × TargetReport) (l : List (Nat × TargetReport)) :
    (List.orderedInsert enumScoreDescLE x l).map Prod.snd =
      List.orderedInsert scoreDescLE x.2 (l.map Prod.snd) := by
  induction l with
  | nil => rfl
  | cons y t ih =>
      rw [List.map_cons]
      by_cases h : enumScoreDescLE x y
      · rw [List.orderedInsert, if_pos h, List.orderedInsert,
          if_pos (show scoreDescLE x.2 y.2 from h), List.map_cons, List.map_cons]
      · rw [List.orderedInsert, if_neg h, List.orderedInsert,
          if_neg (show ¬ scoreDescLE x.2 y.2 from h), List.map_cons, ih]

lemma insertionSort_map_snd (l : List (Nat × TargetReport)) :
    (List.insertionSort enumScoreDescLE l).map Prod.snd =
      List.insertionSort scoreDescLE (l.map Prod.snd) := by
  induction l with
  | nil => rfl
  | cons x t ih => rw [List.insertionSort, orderedInsert_map_snd, ih, List.map_cons,
      List.insertionSort]

/-- A bare report used by the concrete ranking example of C9. -/
def exampleReport (g : String) (score : ℚ) : TargetReport :=
  { gene_symbol := g, target_score := score, literature := [], inhibitors := [],
    structures := [] }

lemma filterMap_toOption_map_ok (rs : List TargetReport) :
    (rs.map Except.ok).filterMap
      (fun r => Except.toOption (ε := String) r) = rs := by
  induction rs with
  | nil => rfl
  | cons x t ih =>
      rw [List.map_cons, List.filterMap_cons]
      show x :: (t.map Except.ok).filterMap (fun r => r.toOption) = x :: t
      rw [ih]

/-- C9: `multi_target_analysis` on per-target analyses that all resolve
is a permutation of the reports, sorted descending by `target_score`,
and the sort is stable — on the indexed list the output is strictly
ordered by "higher score, or equal score and earlier input position",
and dropping the indices gives exactly the returned ranking.  On scores
5, 8, 3 for A, B, C the output order is B, A, C. -/
theorem multi_target_analysis_ranking (rs : List TargetReport) :
    (multi_target_analysis (rs.map Except.ok)).Perm rs ∧
    List.Sorted scoreDescLE (multi_target_analysis (rs.map Except.ok)) ∧
    multi_target_analysis (rs.map Except.ok) =
      (List.insertionSort enumScoreDescLE rs.enum).map Prod.snd ∧
    (List.insertionSort enumScoreDescLE rs.enum).Pairwise enumLexStrict ∧
    multi_target_analysis
        [Except.ok (exampleReport "A" 5), Except.ok (exampleReport "B" 8),
          Except.ok (exampleReport "C" 3)] =
      [exampleReport "B" 8, exampleReport "A" 5, exampleReport "C" 3] := by
  have hcollect : (rs.map Except.ok).filterMap (fun r => r.toOption) = rs :=
    filterMap_toOption_map_ok rs
  refine ⟨?_, ?_, ?_, ?_, ?_⟩
  · unfold multi_target_analysis
    rw [hcollect]
    exact List.perm_insertionSort _ rs
  · unfold multi_target_analysis
    rw [hcollect]
    exact List.sorted_insertionSort _ rs
  · unfold multi_target_analysis
    rw [hcollect, insertionSort_map_snd, List.enum_map_snd]
  · exact insertionSort_pairwise_lex rs.enum (enumFrom_pairwise_lt rs 0)
  · decide

end OmicsOracle
